import Mathlib

/-!
Verification of `databricks_cli/pipelines/api.py` (PipelinesApi and
LibraryObject): library classification, content-addressed upload with
dedup, credential resolution, and the `deploy` request construction.

The external collaborators (hashlib's SHA-1, the DBFS object store, the
request executor and the configuration providers) are modelled as
parameters: a digest function `h : List Nat → String`, a filesystem
association list, a set of remote paths that already exist, a `putOk`
oracle for upload outcomes, and configuration lookup functions.
-/

set_option autoImplicit false

namespace Pipelines

/-- Source `LibraryObject(lib_type, lib_path)`: a (type, path)
descriptor of one library dependency. -/
structure LibraryObject where
  lib_type : String
  path : String
deriving DecidableEq, Repr

/-- Source `LibraryObject.from_json`: for each mapping in the list, for each
(key, value) item, emit `LibraryObject(key, value)`, in iteration order.
A Python dict is modelled as an association list in iteration order. -/
def LibraryObject.from_json (libraries : List (List (String × String))) :
    List LibraryObject :=
  libraries.flatMap (fun library =>
    library.map (fun kv => ⟨kv.1, kv.2⟩))

/-- Source `LibraryObject.to_json`: one single-key mapping per descriptor, in
input order. -/
def LibraryObject.to_json (lib_objects : List LibraryObject) :
    List (List (String × String)) :=
  lib_objects.map (fun lo => [(lo.lib_type, lo.path)])

/-! ## Model of `urllib.parse.urlparse`

The source calls the standard library's `urlparse`; only the `scheme`,
`netloc` and `path` components are consumed. The model below follows the
CPython `urlsplit`/`urlparse` algorithm: the URL is first stripped of
leading C0-control-or-space characters and of any tab, CR or LF; an
initial `scheme:` is then split off when the text before the first colon
starts with an ASCII letter and consists of scheme characters; `//…`
introduces the netloc up to the next `/`, `?` or `#`; the fragment is
split at the first `#`, the query at the first `?`; finally `urlparse`
splits `;params` off the path, but only when the scheme is in
`uses_params` (which does not contain "file", so a file URI keeps any
`;` in its path). The host-bracket validation newer CPython performs on
netlocs containing `[`/`]` (raising for malformed IPv6 hosts) is not
modelled; no claim constrains such inputs. -/

/-- Characters allowed in a URI scheme (ASCII letters, digits, `+-.`). -/
def isSchemeChar (c : Char) : Bool :=
  c.isAlpha || c.isDigit || c = '+' || c = '-' || c = '.'

/-- Membership in CPython's `_WHATWG_C0_CONTROL_OR_SPACE`: the C0
control characters and the space, i.e. code points up to 0x20. CPython
`lstrip`s these off the front of the URL. -/
def isC0ControlOrSpace (c : Char) : Bool :=
  c.toNat ≤ 0x20

/-- Membership in CPython's `_UNSAFE_URL_BYTES_TO_REMOVE`: tab, CR and
LF, removed from anywhere in the URL. -/
def isUnsafeUrlByte (c : Char) : Bool :=
  c = '\t' || c = '\r' || c = '\n'

/-- CPython `uses_params`: the schemes whose paths may carry `;params`.
Only for these does `urlparse` split `;params` off the path; note that
the empty scheme is in the list while "file" is not. -/
def uses_params : List String :=
  ["", "ftp", "hdl", "prospero", "http", "imap", "https", "shttp",
    "rtsp", "rtsps", "rtspu", "sip", "sips", "mms", "sftp", "tel"]

/-- Index of the first occurrence of `c`, if any. -/
def findChar (c : Char) : List Char → Option Nat
  | [] => none
  | x :: xs =>
    if x = c then some 0
    else (findChar c xs).map (· + 1)

/-- Split at the first occurrence of `c`: `(before, after)`, where the
delimiter itself is dropped. `none` when `c` does not occur. -/
def breakAtChar (c : Char) : List Char → Option (List Char × List Char)
  | [] => none
  | x :: xs =>
    if x = c then some ([], xs)
    else (breakAtChar c xs).map (fun p => (x :: p.1, p.2))

/-- Index of the last occurrence of `c`, if any. -/
def rfindChar (c : Char) (l : List Char) : Option Nat :=
  (findChar c l.reverse).map (fun i => l.length - 1 - i)

/-- ASCII lowercase of a character list. -/
def lowerChars (l : List Char) : List Char :=
  l.map Char.toLower

/-- The result of `urlparse`: the components the source consumes, plus
params/query/fragment which the split removes from `path`. -/
structure ParseResult where
  scheme : String
  netloc : String
  path : String
  params : String
  query : String
  fragment : String
deriving DecidableEq, Repr

/-- Split off `scheme:` as CPython `urlsplit` does: requires a colon at
index `i > 0`, a leading ASCII letter, and scheme characters throughout;
the scheme is lowercased. Returns `(scheme, rest)`. -/
def splitScheme (url : List Char) : List Char × List Char :=
  match findChar ':' url with
  | none => ([], url)
  | some i =>
    if i > 0 ∧ (url.headD ' ').isAlpha ∧ (url.take i).all isSchemeChar then
      (lowerChars (url.take i), url.drop (i + 1))
    else ([], url)

/-- CPython `_splitnetloc`: after a leading `//`, the netloc extends to the next
`/`, `?` or `#` (or the end). Returns `(netloc, rest)`. -/
def splitNetloc (url : List Char) : List Char × List Char :=
  let stop := url.findIdx (fun c => c = '/' ∨ c = '?' ∨ c = '#')
  (url.take stop, url.drop stop)

/-- CPython `_splitparams`: split `;params` off the last path segment. -/
def splitParams (url : List Char) : List Char × List Char :=
  let searchFrom :=
    match rfindChar '/' url with
    | some i => i
    | none => 0
  match findChar ';' (url.drop searchFrom) with
  | none => (url, [])
  | some j => (url.take (searchFrom + j), url.drop (searchFrom + j + 1))

/-- Model of `urllib.parse.urlparse` (scheme, netloc, path, params,
query, fragment), on character lists. -/
def urlparseChars (url0 : List Char) : ParseResult :=
  let url := (url0.dropWhile isC0ControlOrSpace).filter
    (fun c => !(isUnsafeUrlByte c))
  let (scheme, rest) := splitScheme url
  let (netloc, rest) :=
    if rest.take 2 = ['/', '/'] then splitNetloc (rest.drop 2)
    else ([], rest)
  let (rest, fragment) :=
    match breakAtChar '#' rest with
    | some p => p
    | none => (rest, [])
  let (rest, query) :=
    match breakAtChar '?' rest with
    | some p => p
    | none => (rest, [])
  let (path, params) :=
    if (⟨scheme⟩ : String) ∈ uses_params ∧ rest.contains ';' then
      splitParams rest
    else (rest, [])
  { scheme := ⟨scheme⟩, netloc := ⟨netloc⟩, path := ⟨path⟩,
    params := ⟨params⟩, query := ⟨query⟩, fragment := ⟨fragment⟩ }

/-- Model of `urllib.parse.urlparse` on strings. -/
def urlparse (url : String) : ParseResult :=
  urlparseChars url.toList

/-! ## Classification (`PipelinesApi._identify_local_libraries`) -/

/-- Source constant `supported_lib_types`, the set with 'jar' and 'whl'. -/
def supported_lib_types : List String := ["jar", "whl"]

/-- The message of the `RuntimeError` raised on an ambiguous file URI. -/
def invalidFileUriMsg : String :=
  "invalid file uri scheme, did you mean to use file:/ or file:///"

/-- One iteration of the `_identify_local_libraries` loop: classify a
single descriptor as local (`inl`, possibly with the path rewritten to
the URI's path component) or external (`inr`), or raise. -/
def identify_one (lib_object : LibraryObject) :
    Except String (LibraryObject ⊕ LibraryObject) :=
  let parsed_uri := urlparse lib_object.path
  if lib_object.lib_type ∈ supported_lib_types ∧ parsed_uri.scheme = "" then
    .ok (.inl lib_object)
  else if lib_object.lib_type ∈ supported_lib_types ∧
      (⟨lowerChars parsed_uri.scheme.toList⟩ : String) = "file" then
    if parsed_uri.path.startsWith "//" ∨ parsed_uri.netloc ≠ "" then
      .error invalidFileUriMsg
    else
      .ok (.inl ⟨lib_object.lib_type, parsed_uri.path⟩)
  else
    .ok (.inr lib_object)

/-- Source `PipelinesApi._identify_local_libraries`: partition the descriptors
into `(local, external)`, preserving relative input order in each
partition; the first ambiguous file URI raises. -/
def identify_local_libraries :
    List LibraryObject → Except String (List LibraryObject × List LibraryObject)
  | [] => .ok ([], [])
  | lo :: rest =>
    match identify_one lo with
    | .error e => .error e
    | .ok cls =>
      match identify_local_libraries rest with
      | .error e => .error e
      | .ok (ls, es) =>
        match cls with
        | .inl l => .ok (l :: ls, es)
        | .inr ex => .ok (ls, ex :: es)

/-- The locally classified descriptors of a list, in input order
(what `_identify_local_libraries` returns first when it succeeds). -/
def locPartition (l : List LibraryObject) : List LibraryObject :=
  l.filterMap (fun lo =>
    match identify_one lo with
    | .ok (.inl x) => some x
    | _ => none)

/-- The externally classified descriptors of a list, in input order
(what `_identify_local_libraries` returns second when it succeeds). -/
def extPartition (l : List LibraryObject) : List LibraryObject :=
  l.filterMap (fun lo =>
    match identify_one lo with
    | .ok (.inr x) => some x
    | _ => none)

/-! ## Content addressing (`PipelinesApi._get_hashed_path`)

The file is read in `BUFFER_SIZE` chunks and fed to `hashlib.sha1`;
streaming the whole content through the digest makes the digest a
function of the full byte content only, which the model captures by
applying an abstract digest function `h` (the hashlib collaborator) to
the file's content. The filesystem is an association list from path to
byte content. -/

/-- Source constant `BUFFER_SIZE = 1024 * 64`. -/
def BUFFER_SIZE : Nat := 1024 * 64

/-- Source constant `base_pipelines_dir = 'dbfs:/pipelines/code'`. -/
def base_pipelines_dir : String := "dbfs:/pipelines/code"

/-- Model of `os.path.splitext` (posix): split the extension, including
its leading dot, off the last path segment; a segment of leading dots
only has no extension. On character lists. -/
def splitextChars (p : List Char) : List Char × List Char :=
  match rfindChar '.' p with
  | none => (p, [])
  | some dotIndex =>
    let filenameIndex :=
      match rfindChar '/' p with
      | none => 0
      | some s => s + 1
    let dotAfterSep :=
      match rfindChar '/' p with
      | none => true
      | some s => decide (s < dotIndex)
    if dotAfterSep &&
        ((p.drop filenameIndex).take (dotIndex - filenameIndex)).any
          (fun c => c != '.') then
      (p.take dotIndex, p.drop dotIndex)
    else (p, [])

/-- Model of `os.path.splitext` on strings. -/
def splitext (p : String) : String × String :=
  ((⟨(splitextChars p.toList).1⟩ : String), (⟨(splitextChars p.toList).2⟩ : String))

/-- Source `PipelinesApi._get_hashed_path`: hash the file's content and return
`'{}/{}{}'.format(base_pipelines_dir, file_hash, splitext(path)[1])`.
A missing file is the `IOError` the `open`/`read` calls raise. -/
def get_hashed_path (h : List Nat → String) (fs : List (String × List Nat))
    (path : String) : Except String String :=
  match fs.lookup path with
  | none => .error ("file read error: " ++ path)
  | some data =>
    .ok (base_pipelines_dir ++ "/" ++ h data ++ (splitext path).2)

/-! ## Upload (`PipelinesApi._upload_local_libraries`)

The DBFS collaborator is modelled by `store`, the list of remote paths
that exist when the call starts (`file_exists` is membership: the code
performs every existence check while building `upload_files`, before any
`put_file`), and by `putOk`, which tells whether a given `put_file`
call succeeds. The observable interaction with the store is recorded as
an event trace. The `DbfsPath` wrapper applied before `file_exists` and
`put_file` carries the same path string and is modelled as the identity. -/

/-- One observable interaction with the DBFS collaborator. -/
inductive Event where
  | existsCheck (remotePath : String) (found : Bool)
  | put (localPath remotePath : String)
deriving DecidableEq, Repr

/-- The comprehension building `remote_lib_objects`: each local
descriptor keeps its `lib_type` and gets the content-addressed path;
the first unreadable file raises. -/
def hashLibraries (h : List Nat → String) (fs : List (String × List Nat)) :
    List LibraryObject → Except String (List LibraryObject)
  | [] => .ok []
  | llo :: rest =>
    match get_hashed_path h fs llo.path with
    | .error e => .error e
    | .ok p =>
      match hashLibraries h fs rest with
      | .error e => .error e
      | .ok rs => .ok (⟨llo.lib_type, p⟩ :: rs)

/-- Source loop `for llo, rlo in upload_files: put_file(...)`: strictly
sequential puts; a failing put aborts the loop, keeping the puts already
completed. Returns the put events and the error, if any. -/
def run_puts (putOk : String → String → Bool) :
    List (LibraryObject × LibraryObject) → List Event × Option String
  | [] => ([], none)
  | (llo, rlo) :: rest =>
    if putOk llo.path rlo.path then
      let res := run_puts putOk rest
      (Event.put llo.path rlo.path :: res.1, res.2)
    else ([], some ("upload error: " ++ rlo.path))

/-- Source `PipelinesApi._upload_local_libraries`: compute the content-addressed
remote descriptors, check existence of every remote path (building
`upload_files`), then upload the pairs whose remote path does not exist;
return the full remote descriptor list. The event trace is returned
alongside the result. -/
def upload_local_libraries (h : List Nat → String) (fs : List (String × List Nat))
    (store : List String) (putOk : String → String → Bool)
    (local_lib_objects : List LibraryObject) :
    List Event × Except String (List LibraryObject) :=
  match hashLibraries h fs local_lib_objects with
  | .error e => ([], .error e)
  | .ok remote_lib_objects =>
    match run_puts putOk ((local_lib_objects.zip remote_lib_objects).filter
        (fun p => !(store.contains p.2.path))) with
    | (putEvs, none) =>
      ((local_lib_objects.zip remote_lib_objects).map (fun p =>
          Event.existsCheck p.2.path (store.contains p.2.path)) ++ putEvs,
        .ok remote_lib_objects)
    | (putEvs, some e) =>
      ((local_lib_objects.zip remote_lib_objects).map (fun p =>
          Event.existsCheck p.2.path (store.contains p.2.path)) ++ putEvs,
        .error e)

/-- The remote paths successfully put during a trace. -/
def putPaths (evs : List Event) : List String :=
  evs.filterMap (fun e =>
    match e with
    | .put _ r => some r
    | _ => none)

/-- The store visible to a later call: the initial store plus every path
the trace successfully put. -/
def storeAfter (store : List String) (evs : List Event) : List String :=
  store ++ putPaths evs

/-- How many puts a trace issues against a given remote path. -/
def countPuts (rp : String) (evs : List Event) : Nat :=
  (putPaths evs).count rp

/-! ## Credentials (`PipelinesApi._get_credentials_for_request`)

`get_profile_from_context` yields the selected profile name (modelled as
an `Option String`, assuming profile names are nonempty);
`ProfileConfigProvider.get_config` and `get_config` are the
configuration providers, modelled as lookup functions returning `none`
where the provider returns a falsy config. -/

/-- Configuration record, with the fields the source consumes. -/
structure Config where
  is_valid : Bool
  is_valid_with_token : Bool
  token : String
  username : String
  password : String
deriving DecidableEq, Repr

/-- Modelled from the spec: the message of
`InvalidConfigurationError.for_profile` (defined outside this file)
names the offending profile, or "default" if none was selected. -/
def invalidConfigurationMsg (profile : Option String) : String :=
  "invalid configuration for profile " ++ profile.getD "default"

/-- Source `PipelinesApi._get_credentials_for_request`: load the selected
profile's configuration (or the default one), reject a missing or
invalid configuration, then return `{'token': ...}` when the
configuration is valid with a token and `{'user': ..., 'password': ...}`
otherwise. The payload is a mapping, modelled as an association list. -/
def get_credentials_for_request (profile : Option String)
    (profileConfig : String → Option Config) (defaultConfig : Option Config) :
    Except String (List (String × String)) :=
  let config :=
    match profile with
    | some p => profileConfig p
    | none => defaultConfig
  match config with
  | none => .error (invalidConfigurationMsg profile)
  | some config =>
    if config.is_valid = false then
      .error (invalidConfigurationMsg profile)
    else if config.is_valid_with_token then
      .ok [("token", config.token)]
    else
      .ok [("user", config.username), ("password", config.password)]

/-! ## The specification mapping and `PipelinesApi.deploy` -/

/-- JSON-like values of the specification mapping. -/
inductive Json where
  | str (s : String)
  | num (n : Int)
  | boolean (b : Bool)
  | null
  | arr (xs : List Json)
  | obj (kvs : List (String × Json))

/-- Python dict assignment `d[k] = v`: replace the value in place when
the key is present (a dict's keys are unique, so the first binding is
the binding), append otherwise. -/
def dictSet : List (String × Json) → String → Json → List (String × Json)
  | [], k, v => [(k, v)]
  | (k0, v0) :: rest, k, v =>
    if k0 = k then (k, v) :: rest else (k0, v0) :: dictSet rest k v

/-- Python `d.get(k, default)`. -/
def dictGetD (d : List (String × Json)) (k : String) (v : Json) : Json :=
  (d.lookup k).getD v

/-- Decode one library mapping: every value must be a string path. -/
def decodeLibrary : List (String × Json) → Except String (List (String × String))
  | [] => .ok []
  | (k, .str v) :: rest =>
    match decodeLibrary rest with
    | .error e => .error e
    | .ok m => .ok ((k, v) :: m)
  | (_, _) :: _ => .error "type error: library path is not a string"

/-- Decode the elements of the `libraries` list: each must be a mapping. -/
def decodeLibraryList : List Json → Except String (List (List (String × String)))
  | [] => .ok []
  | .obj kvs :: rest =>
    match decodeLibrary kvs with
    | .error e => .error e
    | .ok m =>
      match decodeLibraryList rest with
      | .error e => .error e
      | .ok ms => .ok (m :: ms)
  | _ :: _ => .error "type error: library is not a mapping"

/-- Decode the `libraries` value: it must be a list of mappings of
strings (anything else is the `TypeError`/`AttributeError` the dynamic
iteration in `from_json` would hit). -/
def decodeLibraries : Json → Except String (List (List (String × String)))
  | .arr xs => decodeLibraryList xs
  | _ => .error "type error: libraries is not a list"

/-- Encode a library list back into the specification value. -/
def libsToJson (ls : List (List (String × String))) : Json :=
  .arr (ls.map (fun m => .obj (m.map (fun kv => (kv.1, .str kv.2)))))

/-- Encode the credentials payload as the specification value. -/
def credsToJson (c : List (String × String)) : Json :=
  .obj (c.map (fun kv => (kv.1, .str kv.2)))

/-- Python `'{}'.format(value)` for the scalar values a pipeline id
takes in practice; the container cases of `str()` are not consumed by
any property below. -/
def formatId : Json → String
  | .str s => s
  | .num n => toString n
  | .boolean b => if b then "True" else "False"
  | .null => "None"
  | .arr _ => ""
  | .obj _ => ""

/-- The request `perform_query('PUT', '/pipelines/{id}', data=spec,
headers=headers)` hands to the request executor. -/
structure Request where
  method : String
  url : String
  body : List (String × Json)

/-- The value assigned to `spec['libraries']`:
`LibraryObject.to_json(external_lib_objects + upload result)`. -/
def newLibrariesValue (ext remote : List LibraryObject) : Json :=
  libsToJson (LibraryObject.to_json (ext ++ remote))

/-- The caller's mapping right after the `spec['libraries'] = ...`
assignment. -/
def specAfterLibraries (spec : List (String × Json))
    (ext remote : List LibraryObject) : List (String × Json) :=
  dictSet spec "libraries" (newLibrariesValue ext remote)

/-- The caller's mapping right after the `spec['credentials'] = ...`
assignment. -/
def specAfterCredentials (spec : List (String × Json))
    (ext remote : List LibraryObject) (creds : List (String × String)) :
    List (String × Json) :=
  dictSet (specAfterLibraries spec ext remote) "credentials" (credsToJson creds)

/-- Source `PipelinesApi.deploy`: decode `spec.get('libraries', [])`, classify,
upload the local libraries, overwrite `spec['libraries']` with the
re-encoded `external ++ uploaded` list, set `spec['credentials']`, and
issue `PUT /pipelines/{spec['id']}` with the mutated spec as body.
Returns the caller's mapping as it stands after the call (the source
mutates it in place, so a failure after an assignment leaves that
assignment visible), the DBFS event trace, and the request or the first
error. `sendOk` models the request executor's outcome. -/
def deploy (h : List Nat → String) (fs : List (String × List Nat))
    (store : List String) (putOk : String → String → Bool) (sendOk : Bool)
    (profile : Option String) (profileConfig : String → Option Config)
    (defaultConfig : Option Config) (spec : List (String × Json)) :
    List (String × Json) × List Event × Except String Request :=
  match decodeLibraries (dictGetD spec "libraries" (.arr [])) with
  | .error e => (spec, [], .error e)
  | .ok libs =>
    match identify_local_libraries (LibraryObject.from_json libs) with
    | .error e => (spec, [], .error e)
    | .ok (local_lib_objects, external_lib_objects) =>
      match upload_local_libraries h fs store putOk local_lib_objects with
      | (events, .error e) => (spec, events, .error e)
      | (events, .ok remote_lib_objects) =>
        match get_credentials_for_request profile profileConfig defaultConfig with
        | .error e =>
          (specAfterLibraries spec external_lib_objects remote_lib_objects,
            events, .error e)
        | .ok creds =>
          match (specAfterCredentials spec external_lib_objects
              remote_lib_objects creds).lookup "id" with
          | none =>
            (specAfterCredentials spec external_lib_objects
              remote_lib_objects creds, events, .error "KeyError: id")
          | some idv =>
            if sendOk then
              (specAfterCredentials spec external_lib_objects
                remote_lib_objects creds, events,
                .ok ⟨"PUT", "/pipelines/" ++ formatId idv,
                  specAfterCredentials spec external_lib_objects
                    remote_lib_objects creds⟩)
            else
              (specAfterCredentials spec external_lib_objects
                remote_lib_objects creds, events, .error "request error")

/-! ## Auxiliary notions used by the statements -/

/-- Whether `needle` occurs at the start of `hay` (character lists). -/
def startsWithChars : List Char → List Char → Bool
  | _, [] => true
  | [], _ :: _ => false
  | c :: cs, n :: ns => c = n && startsWithChars cs ns

/-- Whether `needle` occurs anywhere inside `hay` (character lists):
used to state that an error message mentions a given form. -/
def containsChars (hay needle : List Char) : Bool :=
  match hay with
  | [] => startsWithChars [] needle
  | _ :: t => startsWithChars hay needle || containsChars t needle

/-- Whether the string `hay` mentions the string `needle`. -/
def mentions (hay needle : String) : Bool :=
  containsChars hay.toList needle.toList

/-- All (libType, path) items of a library list, in order. -/
def pairsOf (ls : List (List (String × String))) : List (String × String) :=
  ls.flatMap (fun m => m)

/-! ## Helper lemmas -/

/-- When classification succeeds, its two outputs are exactly the
order-preserving local and external sublists of the input. -/
theorem identify_ok_parts (l : List LibraryObject) (loc ext : List LibraryObject)
    (hid : identify_local_libraries l = .ok (loc, ext)) :
    loc = locPartition l ∧ ext = extPartition l := by
  induction l generalizing loc ext with
  | nil =>
    simp only [identify_local_libraries, Except.ok.injEq, Prod.mk.injEq] at hid
    simp [locPartition, extPartition, ← hid.1, ← hid.2]
  | cons lo rest ih =>
    simp only [identify_local_libraries] at hid
    cases hone : identify_one lo with
    | error e => rw [hone] at hid; exact absurd hid (by simp)
    | ok cls =>
      rw [hone] at hid
      cases hrest : identify_local_libraries rest with
      | error e => rw [hrest] at hid; exact absurd hid (by simp)
      | ok p =>
        obtain ⟨ls, es⟩ := p
        rw [hrest] at hid
        obtain ⟨hl, he⟩ := ih ls es hrest
        cases cls with
        | inl x =>
          simp only [Except.ok.injEq, Prod.mk.injEq] at hid
          obtain ⟨h1, h2⟩ := hid
          subst h1; subst h2
          constructor
          · simp [locPartition, List.filterMap_cons, hone, hl]
          · simp [extPartition, List.filterMap_cons, hone, he]
        | inr x =>
          simp only [Except.ok.injEq, Prod.mk.injEq] at hid
          obtain ⟨h1, h2⟩ := hid
          subst h1; subst h2
          constructor
          · simp [locPartition, List.filterMap_cons, hone, hl]
          · simp [extPartition, List.filterMap_cons, hone, he]

/-- Successful hashing maps each input descriptor to its
content-addressed remote descriptor, in order. -/
theorem hashLibraries_ok_iff (h : List Nat → String) (fs : List (String × List Nat))
    (l r : List LibraryObject) :
    hashLibraries h fs l = .ok r ↔
      (r.length = l.length ∧
        ∀ p ∈ l.zip r, ∃ rp, get_hashed_path h fs p.1.path = .ok rp ∧
          p.2 = ⟨p.1.lib_type, rp⟩) := by
  induction l generalizing r with
  | nil =>
    simp only [hashLibraries]
    constructor
    · rintro h'; cases h'; simp
    · rintro ⟨hlen, _⟩
      cases r with
      | nil => rfl
      | cons a as => simp at hlen
  | cons llo rest ih =>
    simp only [hashLibraries]
    cases hg : get_hashed_path h fs llo.path with
    | error e =>
      constructor
      · intro h'; exact absurd h' (by simp)
      · rintro ⟨hlen, hall⟩
        cases r with
        | nil => simp at hlen
        | cons b bs =>
          obtain ⟨rp, hrp, _⟩ := hall (llo, b) (by simp)
          rw [hg] at hrp; exact absurd hrp (by simp)
    | ok p =>
      cases hrest : hashLibraries h fs rest with
      | error e =>
        constructor
        · intro h'; exact absurd h' (by simp)
        · rintro ⟨hlen, hall⟩
          cases r with
          | nil => simp at hlen
          | cons b bs =>
            have : bs.length = rest.length := by simpa using hlen
            have hall' : ∀ q ∈ rest.zip bs, ∃ rp,
                get_hashed_path h fs q.1.path = .ok rp ∧ q.2 = ⟨q.1.lib_type, rp⟩ := by
              intro q hq
              exact hall q (by simp [hq])
            have := (ih bs).mpr ⟨this, hall'⟩
            rw [hrest] at this; exact absurd this (by simp)
      | ok rs =>
        simp only []
        constructor
        · intro h'
          cases h'
          refine ⟨by simpa using ((ih rs).mp hrest).1, ?_⟩
          intro q hq
          rcases List.mem_cons.mp (by simpa [List.zip_cons_cons] using hq) with hq1 | hq2
          · exact ⟨p, by simp [hq1, hg]⟩
          · exact ((ih rs).mp hrest).2 q hq2
        · rintro ⟨hlen, hall⟩
          cases r with
          | nil => simp at hlen
          | cons b bs =>
            obtain ⟨rp, hrp, hb⟩ := hall (llo, b) (by simp)
            rw [hg] at hrp
            have hbs : hashLibraries h fs rest = .ok bs := by
              refine (ih bs).mpr ⟨by simpa using hlen, ?_⟩
              intro q hq
              exact hall q (by simp [hq])
            rw [hrest] at hbs
            cases hbs
            cases hrp
            simp only [Except.ok.injEq, List.cons.injEq]
            simp at hb
            exact ⟨hb.symm, trivial⟩

/-- Every event the put loop emits is a put event. -/
theorem run_puts_events_put (putOk : String → String → Bool)
    (pairs : List (LibraryObject × LibraryObject)) (e : Event)
    (he : e ∈ (run_puts putOk pairs).1) : ∃ l r, e = Event.put l r := by
  induction pairs with
  | nil => simp [run_puts] at he
  | cons p rest ih =>
    obtain ⟨llo, rlo⟩ := p
    by_cases hp : putOk llo.path rlo.path
    · simp only [run_puts, hp, if_true] at he
      rcases List.mem_cons.mp he with h1 | h2
      · exact ⟨llo.path, rlo.path, h1⟩
      · exact ih h2
    · simp [run_puts, hp] at he

/-- Every put event the loop emits comes from one of its input pairs. -/
theorem run_puts_put_from_pair (putOk : String → String → Bool)
    (pairs : List (LibraryObject × LibraryObject)) (l r : String)
    (he : Event.put l r ∈ (run_puts putOk pairs).1) :
    ∃ p, p ∈ pairs ∧ p.1.path = l ∧ p.2.path = r := by
  induction pairs with
  | nil => simp [run_puts] at he
  | cons p rest ih =>
    obtain ⟨llo, rlo⟩ := p
    by_cases hp : putOk llo.path rlo.path
    · simp only [run_puts, hp, if_true] at he
      rcases List.mem_cons.mp he with h1 | h2
      · refine ⟨(llo, rlo), by simp, ?_, ?_⟩
        · exact (Event.put.injEq .. ▸ h1).1.symm
        · exact (Event.put.injEq .. ▸ h1).2.symm
      · obtain ⟨q, hq, h3, h4⟩ := ih h2
        exact ⟨q, by simp [hq], h3, h4⟩
    · simp [run_puts, hp] at he

/-- When every put succeeds, the loop performs them all in input order. -/
theorem run_puts_all_ok (putOk : String → String → Bool)
    (pairs : List (LibraryObject × LibraryObject))
    (hall : ∀ p ∈ pairs, putOk p.1.path p.2.path = true) :
    run_puts putOk pairs =
      (pairs.map (fun p => Event.put p.1.path p.2.path), none) := by
  induction pairs with
  | nil => rfl
  | cons p rest ih =>
    obtain ⟨llo, rlo⟩ := p
    have hp := hall (llo, rlo) (by simp)
    simp only [run_puts, hp, if_true]
    rw [ih (fun q hq => hall q (by simp [hq]))]
    simp

/-- A failing put aborts the loop at once: the puts before it complete
in input order, nothing after it is attempted, and the completed puts
stand (the trace keeps them). -/
theorem run_puts_failure (putOk : String → String → Bool)
    (pre post : List (LibraryObject × LibraryObject))
    (pair : LibraryObject × LibraryObject)
    (hpre : ∀ p ∈ pre, putOk p.1.path p.2.path = true)
    (hfail : putOk pair.1.path pair.2.path = false) :
    run_puts putOk (pre ++ pair :: post) =
      (pre.map (fun p => Event.put p.1.path p.2.path),
        some ("upload error: " ++ pair.2.path)) := by
  induction pre with
  | nil =>
    obtain ⟨llo, rlo⟩ := pair
    simp only [List.nil_append, run_puts]
    simp at hfail
    simp [hfail]
  | cons p rest ih =>
    obtain ⟨llo, rlo⟩ := p
    have hp := hpre (llo, rlo) (by simp)
    simp only [List.cons_append, run_puts, hp, if_true]
    simp only [List.append_eq]
    rw [ih (fun q hq => hpre q (by simp [hq]))]
    simp

/-- Assigning a key makes it readable back. -/
theorem lookup_dictSet_self (d : List (String × Json)) (k : String) (v : Json) :
    (dictSet d k v).lookup k = some v := by
  induction d with
  | nil => simp [dictSet, List.lookup]
  | cons kv rest ih =>
    obtain ⟨k0, v0⟩ := kv
    by_cases hk : k0 = k
    · simp [dictSet, hk, List.lookup]
    · have hbeq : (k == k0) = false := by simp [Ne.symm hk]
      simp [dictSet, hk, List.lookup, hbeq, ih]

/-- Assigning a key leaves every other key's binding unchanged. -/
theorem lookup_dictSet_ne (d : List (String × Json)) (k : String) (v : Json)
    (k' : String) (hk : k' ≠ k) :
    (dictSet d k v).lookup k' = d.lookup k' := by
  have hbk : (k' == k) = false := by simp [hk]
  induction d with
  | nil => simp [dictSet, List.lookup, hbk]
  | cons kv rest ih =>
    obtain ⟨k0, v0⟩ := kv
    by_cases h0 : k0 = k
    · subst h0
      simp [dictSet, List.lookup, hbk]
    · by_cases h1 : k0 = k'
      · subst h1
        simp [dictSet, h0, List.lookup]
      · have hbk0 : (k' == k0) = false := by simp [Ne.symm h1]
        simp [dictSet, h0, List.lookup, hbk0, ih]

/-- A successful upload run pins down every part of the result: the
remote descriptors are the hashed ones, and the trace is the existence
checks followed by the puts of the not-yet-existing pairs. -/
theorem upload_local_libraries_ok (h : List Nat → String)
    (fs : List (String × List Nat)) (store : List String)
    (putOk : String → String → Bool) (locals : List LibraryObject)
    (events : List Event) (remote : List LibraryObject)
    (hrun : upload_local_libraries h fs store putOk locals = (events, .ok remote)) :
    hashLibraries h fs locals = .ok remote ∧
    ∃ putEvs,
      run_puts putOk ((locals.zip remote).filter
        (fun p => !(store.contains p.2.path))) = (putEvs, none) ∧
      events = (locals.zip remote).map (fun p =>
        Event.existsCheck p.2.path (store.contains p.2.path)) ++ putEvs := by
  unfold upload_local_libraries at hrun
  split at hrun
  · simp at hrun
  · rename_i rlos heq
    split at hrun
    · rename_i putEvs heq2
      simp only [Prod.mk.injEq, Except.ok.injEq] at hrun
      obtain ⟨hev, hrem⟩ := hrun
      subst hrem
      exact ⟨heq, putEvs, heq2, hev.symm⟩
    · rename_i putEvs e heq2
      simp at hrun

/-- Decode-then-encode reproduces the item sequence exactly (the items
are regrouped one per mapping, but their order is untouched). -/
theorem pairsOf_roundtrip (L : List (List (String × String))) :
    pairsOf (LibraryObject.to_json (LibraryObject.from_json L)) = pairsOf L := by
  induction L with
  | nil => rfl
  | cons m rest ih =>
    simp only [pairsOf, LibraryObject.from_json, LibraryObject.to_json,
      List.flatMap_cons, List.map_append, List.flatMap_append] at ih ⊢
    rw [ih]
    induction m with
    | nil => rfl
    | cons kv tail ihm =>
      simp only [List.map_cons, List.flatMap_cons] at ihm ⊢
      rw [List.append_assoc, ihm]
      simp

/-- A successful `deploy` decomposes into its stages: decode, classify,
upload, credential resolution, the two assignments, the id lookup and
the PUT request carrying the mutated mapping. -/
theorem deploy_ok_decomp (h : List Nat → String) (fs : List (String × List Nat))
    (store : List String) (putOk : String → String → Bool) (sendOk : Bool)
    (profile : Option String) (pc : String → Option Config)
    (dc : Option Config) (spec spec' : List (String × Json))
    (evs : List Event) (req : Request)
    (hdep : deploy h fs store putOk sendOk profile pc dc spec =
      (spec', evs, .ok req)) :
    ∃ libs loc ext remote creds idv,
      decodeLibraries (dictGetD spec "libraries" (.arr [])) = .ok libs ∧
      identify_local_libraries (LibraryObject.from_json libs) = .ok (loc, ext) ∧
      upload_local_libraries h fs store putOk loc = (evs, .ok remote) ∧
      get_credentials_for_request profile pc dc = .ok creds ∧
      spec' = specAfterCredentials spec ext remote creds ∧
      spec'.lookup "id" = some idv ∧ sendOk = true ∧
      req = ⟨"PUT", "/pipelines/" ++ formatId idv, spec'⟩ := by
  unfold deploy at hdep
  split at hdep
  · simp at hdep
  · rename_i libs hdec
    split at hdep
    · simp at hdep
    · rename_i loc ext hident
      split at hdep
      · simp at hdep
      · rename_i events remote hup
        split at hdep
        · simp at hdep
        · rename_i creds hcred
          split at hdep
          · simp at hdep
          · rename_i idv hid
            by_cases hsend : sendOk
            · rw [if_pos hsend] at hdep
              simp only [Prod.mk.injEq, Except.ok.injEq] at hdep
              obtain ⟨h1, h2, h3⟩ := hdep
              subst h1; subst h2
              exact ⟨libs, loc, ext, remote, creds, idv, hdec, hident,
                hup, hcred, rfl, hid, by simp [hsend], h3.symm⟩
            · rw [if_neg hsend] at hdep
              simp at hdep

/-! ## The claims -/

/-- C6: decoding a library list to descriptors and re-encoding yields a
list with one single-key mapping per descriptor, holding exactly the
same set of (libType, path) pairs as the input list. -/
theorem c6_roundtrip_pairs (L : List (List (String × String))) :
    (∀ m ∈ LibraryObject.to_json (LibraryObject.from_json L), m.length = 1) ∧
    (∀ p : String × String,
      p ∈ pairsOf (LibraryObject.to_json (LibraryObject.from_json L)) ↔
        p ∈ pairsOf L) := by
  constructor
  · intro m hm
    simp only [LibraryObject.to_json, List.mem_map] at hm
    obtain ⟨lo, _, rfl⟩ := hm
    rfl
  · intro p
    rw [pairsOf_roundtrip]

/-- C8: a descriptor whose libType is outside the supported set
{jar, whl} is classified external unconditionally — same object, path
untouched, no error — whatever its path's URI scheme looks like. -/
theorem c8_unsupported_always_external (lo : LibraryObject)
    (hT : lo.lib_type ∉ supported_lib_types) :
    identify_one lo = .ok (.inr lo) := by
  unfold identify_one
  rw [if_neg (fun hc => hT hc.1), if_neg (fun hc => hT hc.1)]

/-- Witness for C8 at the descriptor ("egg", "file://host/a.egg"): the
malformed file URI raises nothing because the type is unsupported. -/
theorem c8_witness :
    (⟨"egg", "file://host/a.egg"⟩ : LibraryObject).lib_type ∉ supported_lib_types ∧
    identify_one ⟨"egg", "file://host/a.egg"⟩ =
      .ok (.inr ⟨"egg", "file://host/a.egg"⟩) :=
  ⟨by decide, c8_unsupported_always_external ⟨"egg", "file://host/a.egg"⟩ (by decide)⟩

/-- C3: for a supported descriptor whose path parses with scheme "file"
(case-insensitively), classification raises the fatal invalid-URI error
exactly when the parsed authority is non-empty or the parsed path starts
with two slashes — and the message mentions the `file:/` and `file:///`
forms; otherwise it is classified local with its path replaced by the
URI's path component. -/
theorem c3_file_scheme_classification (lo : LibraryObject)
    (hT : lo.lib_type ∈ supported_lib_types)
    (hS : (⟨lowerChars (urlparse lo.path).scheme.toList⟩ : String) = "file") :
    (((urlparse lo.path).path.startsWith "//" ∨ (urlparse lo.path).netloc ≠ "") →
      identify_one lo = .error invalidFileUriMsg) ∧
    (¬((urlparse lo.path).path.startsWith "//" ∨ (urlparse lo.path).netloc ≠ "") →
      identify_one lo = .ok (.inl ⟨lo.lib_type, (urlparse lo.path).path⟩)) ∧
    (∀ e, identify_one lo = .error e →
      ((urlparse lo.path).path.startsWith "//" ∨ (urlparse lo.path).netloc ≠ "") ∧
      mentions e "file:/" = true ∧ mentions e "file:///" = true) := by
  have hscheme : ¬(urlparse lo.path).scheme = "" := by
    intro h0
    rw [h0] at hS
    exact absurd hS (by decide)
  refine ⟨?_, ?_, ?_⟩
  · intro hc
    unfold identify_one
    rw [if_neg (fun hc' => hscheme hc'.2), if_pos ⟨hT, hS⟩, if_pos hc]
  · intro hc
    unfold identify_one
    rw [if_neg (fun hc' => hscheme hc'.2), if_pos ⟨hT, hS⟩, if_neg hc]
  · intro e he
    unfold identify_one at he
    rw [if_neg (fun hc' => hscheme hc'.2), if_pos ⟨hT, hS⟩] at he
    by_cases hc : (urlparse lo.path).path.startsWith "//" ∨ (urlparse lo.path).netloc ≠ ""
    · rw [if_pos hc] at he
      have : e = invalidFileUriMsg := (Except.error.injEq .. ▸ he).symm
      subst this
      exact ⟨hc, by decide, by decide⟩
    · rw [if_neg hc] at he
      exact absurd he (by simp)

/-- Witness for C3 at the descriptor ("jar", "file://host/a.jar"),
whose parsed authority "host" is non-empty: classification raises the
invalid-URI error and its message mentions both recommended forms. -/
theorem c3_witness :
    (⟨"jar", "file://host/a.jar"⟩ : LibraryObject).lib_type ∈ supported_lib_types ∧
    (⟨lowerChars (urlparse "file://host/a.jar").scheme.toList⟩ : String) = "file" ∧
    (((urlparse "file://host/a.jar").path.startsWith "//" ∨
        (urlparse "file://host/a.jar").netloc ≠ "") →
      identify_one ⟨"jar", "file://host/a.jar"⟩ = .error invalidFileUriMsg) :=
  ⟨by decide, by decide,
    (c3_file_scheme_classification ⟨"jar", "file://host/a.jar"⟩
      (by decide) (by decide)).1⟩

/-- C1 counterexample: a resolved configuration that is valid but not
valid-with-token yields the payload with keys "user" and "password" —
there is no "username" key, so the claimed second shape
`{username: ..., password: ...}` is not what credential resolution
returns. -/
theorem c1_counterexample :
    get_credentials_for_request none (fun _ => none)
        (some ⟨true, false, "T", "u", "p"⟩) =
      .ok [("user", "u"), ("password", "p")] ∧
    (([("user", "u"), ("password", "p")] : List (String × String)).map
        Prod.fst).contains "username" = false :=
  ⟨rfl, by decide⟩

/-- C1 (amended): for every resolved configuration, the credential
payload is exactly one of two shapes: `{token: <token>}` when the
configuration is valid with a token, and otherwise
`{user: <username>, password: <password>}` — the username is carried
under the key "user" — never both shapes and never a mixture. -/
theorem c1_credential_payload_shape (profile : Option String)
    (profileConfig : String → Option Config) (defaultConfig : Option Config)
    (c : Config)
    (hc : (match profile with
           | some p => profileConfig p
           | none => defaultConfig) = some c)
    (hv : c.is_valid = true) :
    (c.is_valid_with_token = true →
      get_credentials_for_request profile profileConfig defaultConfig =
        .ok [("token", c.token)]) ∧
    (c.is_valid_with_token = false →
      get_credentials_for_request profile profileConfig defaultConfig =
        .ok [("user", c.username), ("password", c.password)]) ∧
    (∀ payload,
      get_credentials_for_request profile profileConfig defaultConfig =
        .ok payload →
      payload.map Prod.fst = ["token"] ∨
        payload.map Prod.fst = ["user", "password"]) := by
  unfold get_credentials_for_request
  rw [hc]
  simp only [hv]
  by_cases ht : c.is_valid_with_token
  · refine ⟨fun _ => by simp [ht], fun hf => absurd ht (by simp [hf]), ?_⟩
    intro payload hp
    rw [if_neg (by simp : ¬(true = false))] at hp
    rw [if_pos ht] at hp
    cases hp
    left; rfl
  · refine ⟨fun htt => absurd htt (by simpa using ht), fun _ => by simp [ht], ?_⟩
    intro payload hp
    rw [if_neg (by simp : ¬(true = false))] at hp
    rw [if_neg ht] at hp
    cases hp
    right; rfl

/-- Witness for C1 at a token-valid configuration resolved from the
default provider: the payload is exactly the token shape. -/
theorem c1_witness :
    ((match (none : Option String) with
      | some p => (fun _ => (none : Option Config)) p
      | none => some ⟨true, true, "T", "u", "p"⟩) =
        some (⟨true, true, "T", "u", "p"⟩ : Config)) ∧
    (⟨true, true, "T", "u", "p"⟩ : Config).is_valid = true ∧
    ((⟨true, true, "T", "u", "p"⟩ : Config).is_valid_with_token = true →
      get_credentials_for_request none (fun _ => none)
          (some ⟨true, true, "T", "u", "p"⟩) =
        .ok [("token", "T")]) :=
  ⟨rfl, rfl,
    (c1_credential_payload_shape none (fun _ => none)
      (some ⟨true, true, "T", "u", "p"⟩) ⟨true, true, "T", "u", "p"⟩
      rfl rfl).1⟩

/-- C5: on a successful upload run, a local descriptor whose remote
path the store already reports as existing is never put; its remote
descriptor is still in the returned sequence; and every existence check
appears in the trace before any put. -/
theorem c5_exists_skips_put (h : List Nat → String)
    (fs : List (String × List Nat)) (store : List String)
    (putOk : String → String → Bool) (locals : List LibraryObject)
    (events : List Event) (remote : List LibraryObject)
    (hrun : upload_local_libraries h fs store putOk locals = (events, .ok remote)) :
    (∀ llo rp, llo ∈ locals → get_hashed_path h fs llo.path = .ok rp →
      store.contains rp = true →
      (Event.put llo.path rp ∉ events) ∧
        (⟨llo.lib_type, rp⟩ : LibraryObject) ∈ remote) ∧
    (∃ checkEvs putEvs, events = checkEvs ++ putEvs ∧
      (∀ e ∈ checkEvs, ∃ q b, e = Event.existsCheck q b) ∧
      (∀ e ∈ putEvs, ∃ l r, e = Event.put l r)) := by
  obtain ⟨hhash, putEvs, hrp, hev⟩ :=
    upload_local_libraries_ok h fs store putOk locals events remote hrun
  have hnostore : ∀ l r, Event.put l r ∈ events → store.contains r = false := by
    intro l r hmem
    rw [hev] at hmem
    rcases List.mem_append.mp hmem with h1 | h2
    · obtain ⟨p, _, hcontr⟩ := List.mem_map.mp h1
      exact absurd hcontr (by simp)
    · have h2' : Event.put l r ∈ (run_puts putOk ((locals.zip remote).filter
          (fun p => !(store.contains p.2.path)))).1 := by rw [hrp]; exact h2
      obtain ⟨p, hp, hpl, hpr⟩ := run_puts_put_from_pair _ _ _ _ h2'
      have := (List.mem_filter.mp hp).2
      rw [hpr] at this
      simpa using this
  constructor
  · intro llo rp hmem hhp hstore
    constructor
    · intro hput
      rw [hnostore llo.path rp hput] at hstore
      exact absurd hstore (by simp)
    · obtain ⟨i, hi, hieq⟩ := List.mem_iff_getElem.mp hmem
      have hlen := ((hashLibraries_ok_iff h fs locals remote).mp hhash).1
      have hpair : (locals[i], remote.get ⟨i, by omega⟩) ∈ locals.zip remote := by
        rw [List.mem_iff_getElem]
        exact ⟨i, by simp [List.length_zip]; omega, by simp⟩
      obtain ⟨rp', hrp', heq'⟩ :=
        ((hashLibraries_ok_iff h fs locals remote).mp hhash).2 _ hpair
      rw [hieq] at hrp' heq'
      rw [hhp] at hrp'
      have : rp' = rp := by simpa using hrp'.symm
      subst this
      rw [← hieq] at heq' ⊢
      rw [← heq']
      exact List.getElem_mem _
  · refine ⟨_, putEvs, hev, ?_, ?_⟩
    · intro e he
      obtain ⟨p, _, rfl⟩ := List.mem_map.mp he
      exact ⟨p.2.path, store.contains p.2.path, rfl⟩
    · intro e he
      have he' : e ∈ (run_puts putOk ((locals.zip remote).filter
          (fun p => !(store.contains p.2.path)))).1 := by rw [hrp]; exact he
      exact run_puts_events_put _ _ _ he'

/-- Witness for C5: one local file whose remote path already exists and
one whose does not; the trace holds both checks, then one put, and both
remote descriptors are returned. -/
theorem c5_witness :
    (upload_local_libraries (fun _ => "H") [("a.jar", [1]), ("b.whl", [2])]
        ["dbfs:/pipelines/code/H.jar"] (fun _ _ => true)
        [⟨"jar", "a.jar"⟩, ⟨"whl", "b.whl"⟩] =
      ([Event.existsCheck "dbfs:/pipelines/code/H.jar" true,
        Event.existsCheck "dbfs:/pipelines/code/H.whl" false,
        Event.put "b.whl" "dbfs:/pipelines/code/H.whl"],
        .ok [⟨"jar", "dbfs:/pipelines/code/H.jar"⟩,
             ⟨"whl", "dbfs:/pipelines/code/H.whl"⟩])) ∧
    ((⟨"jar", "a.jar"⟩ : LibraryObject) ∈
        [(⟨"jar", "a.jar"⟩ : LibraryObject), ⟨"whl", "b.whl"⟩] ∧
      get_hashed_path (fun _ => "H") [("a.jar", [1]), ("b.whl", [2])] "a.jar" =
        .ok "dbfs:/pipelines/code/H.jar" ∧
      (["dbfs:/pipelines/code/H.jar"] : List String).contains
        "dbfs:/pipelines/code/H.jar" = true) ∧
    (Event.put "a.jar" "dbfs:/pipelines/code/H.jar" ∉
        [Event.existsCheck "dbfs:/pipelines/code/H.jar" true,
          Event.existsCheck "dbfs:/pipelines/code/H.whl" false,
          Event.put "b.whl" "dbfs:/pipelines/code/H.whl"] ∧
      (⟨"jar", "dbfs:/pipelines/code/H.jar"⟩ : LibraryObject) ∈
        [(⟨"jar", "dbfs:/pipelines/code/H.jar"⟩ : LibraryObject),
          ⟨"whl", "dbfs:/pipelines/code/H.whl"⟩]) :=
  ⟨by rfl, ⟨by decide, by rfl, by rfl⟩,
    (c5_exists_skips_put (fun _ => "H") [("a.jar", [1]), ("b.whl", [2])]
      ["dbfs:/pipelines/code/H.jar"] (fun _ _ => true)
      [⟨"jar", "a.jar"⟩, ⟨"whl", "b.whl"⟩] _ _ (by rfl)).1
      ⟨"jar", "a.jar"⟩ "dbfs:/pipelines/code/H.jar"
      (by decide) (by rfl) (by rfl)⟩

/-- C7: when a put fails during the upload phase, the whole call fails
at once with that upload's error: puts run strictly sequentially in
input order, the puts before the failing one are completed and stay in
the trace (no rollback), and no put after the failing one is attempted. -/
theorem c7_put_failure_aborts (h : List Nat → String)
    (fs : List (String × List Nat)) (store : List String)
    (putOk : String → String → Bool) (locals remote : List LibraryObject)
    (pre post : List (LibraryObject × LibraryObject))
    (pair : LibraryObject × LibraryObject)
    (hhash : hashLibraries h fs locals = .ok remote)
    (hsplit : (locals.zip remote).filter (fun p => !(store.contains p.2.path)) =
      pre ++ pair :: post)
    (hpre : ∀ p ∈ pre, putOk p.1.path p.2.path = true)
    (hfail : putOk pair.1.path pair.2.path = false) :
    upload_local_libraries h fs store putOk locals =
      ((locals.zip remote).map (fun p =>
          Event.existsCheck p.2.path (store.contains p.2.path)) ++
        pre.map (fun p => Event.put p.1.path p.2.path),
        .error ("upload error: " ++ pair.2.path)) := by
  have hfin := run_puts_failure putOk pre post pair hpre hfail
  unfold upload_local_libraries
  rw [hhash]
  simp only [hsplit, hfin]

/-- Witness for C7: the second of three pending uploads fails; the first
is completed and kept, the third is never attempted, and the call
errors. -/
theorem c7_witness :
    (hashLibraries (fun d => if d = [1] then "A" else if d = [2] then "B" else "C")
        [("a.jar", [1]), ("b.jar", [2]), ("c.jar", [3])]
        [⟨"jar", "a.jar"⟩, ⟨"jar", "b.jar"⟩, ⟨"jar", "c.jar"⟩] = .ok
        [⟨"jar", "dbfs:/pipelines/code/A.jar"⟩, ⟨"jar", "dbfs:/pipelines/code/B.jar"⟩,
          ⟨"jar", "dbfs:/pipelines/code/C.jar"⟩]) ∧
    upload_local_libraries
        (fun d => if d = [1] then "A" else if d = [2] then "B" else "C")
        [("a.jar", [1]), ("b.jar", [2]), ("c.jar", [3])] []
        (fun l _ => l != "b.jar")
        [⟨"jar", "a.jar"⟩, ⟨"jar", "b.jar"⟩, ⟨"jar", "c.jar"⟩] =
      ([Event.existsCheck "dbfs:/pipelines/code/A.jar" false,
        Event.existsCheck "dbfs:/pipelines/code/B.jar" false,
        Event.existsCheck "dbfs:/pipelines/code/C.jar" false,
        Event.put "a.jar" "dbfs:/pipelines/code/A.jar"],
        .error ("upload error: " ++ "dbfs:/pipelines/code/B.jar")) :=
  ⟨by rfl,
    c7_put_failure_aborts
      (fun d => if d = [1] then "A" else if d = [2] then "B" else "C")
      [("a.jar", [1]), ("b.jar", [2]), ("c.jar", [3])] []
      (fun l _ => l != "b.jar")
      [⟨"jar", "a.jar"⟩, ⟨"jar", "b.jar"⟩, ⟨"jar", "c.jar"⟩]
      [⟨"jar", "dbfs:/pipelines/code/A.jar"⟩, ⟨"jar", "dbfs:/pipelines/code/B.jar"⟩,
        ⟨"jar", "dbfs:/pipelines/code/C.jar"⟩]
      [(⟨"jar", "a.jar"⟩, ⟨"jar", "dbfs:/pipelines/code/A.jar"⟩)]
      [(⟨"jar", "c.jar"⟩, ⟨"jar", "dbfs:/pipelines/code/C.jar"⟩)]
      (⟨"jar", "b.jar"⟩, ⟨"jar", "dbfs:/pipelines/code/B.jar"⟩)
      (by rfl) (by rfl) (by decide) (by rfl)⟩

/-- C2 counterexample: the remote path keeps the local file's extension,
so the files "a.jar" and "a.txt" with identical byte content [1] map to
different remote paths; and two files "a.jar", "b.jar" with identical
content in the same call are each put — two puts to the one remote path
— because every existence check runs before any put. -/
theorem c2_counterexample :
    (get_hashed_path (fun _ => "H") [("a.jar", [1]), ("a.txt", [1])] "a.jar" =
        .ok "dbfs:/pipelines/code/H.jar" ∧
      get_hashed_path (fun _ => "H") [("a.jar", [1]), ("a.txt", [1])] "a.txt" =
        .ok "dbfs:/pipelines/code/H.txt" ∧
      ("dbfs:/pipelines/code/H.jar" : String) ≠ "dbfs:/pipelines/code/H.txt") ∧
    countPuts "dbfs:/pipelines/code/H.jar"
      (upload_local_libraries (fun _ => "H") [("a.jar", [1]), ("b.jar", [1])] []
        (fun _ _ => true) [⟨"jar", "a.jar"⟩, ⟨"jar", "b.jar"⟩]).1 = 2 :=
  ⟨⟨by rfl, by rfl, by decide⟩, by rfl⟩

/-- C2 (amended): two local files with byte-identical content and the
same extension always map to the same content-addressed remote path;
and across two successive calls — the second seeing the store as the
first left it — the shared remote path is put at most once combined.
(Within a single call each such file is put separately, since all
existence checks precede all puts.) -/
theorem c2_content_addressing_dedup (h : List Nat → String)
    (fs : List (String × List Nat)) (p1 p2 : String) (c : List Nat)
    (h1 : fs.lookup p1 = some c) (h2 : fs.lookup p2 = some c)
    (hext : (splitext p1).2 = (splitext p2).2)
    (store : List String) (putOk1 putOk2 : String → String → Bool)
    (t1 t2 : String) (rp : String)
    (hrp : get_hashed_path h fs p1 = .ok rp) :
    get_hashed_path h fs p1 = get_hashed_path h fs p2 ∧
    countPuts rp (upload_local_libraries h fs store putOk1 [⟨t1, p1⟩]).1 +
      countPuts rp (upload_local_libraries h fs
        (storeAfter store (upload_local_libraries h fs store putOk1 [⟨t1, p1⟩]).1)
        putOk2 [⟨t2, p2⟩]).1 ≤ 1 := by
  have hsame : get_hashed_path h fs p1 = get_hashed_path h fs p2 := by
    unfold get_hashed_path
    rw [h1, h2, hext]
  refine ⟨hsame, ?_⟩
  have hrp2 : get_hashed_path h fs p2 = .ok rp := hsame ▸ hrp
  have hash1 : hashLibraries h fs [⟨t1, p1⟩] = .ok [⟨t1, rp⟩] := by
    unfold hashLibraries
    rw [hrp]
    rfl
  have hash2 : hashLibraries h fs [⟨t2, p2⟩] = .ok [⟨t2, rp⟩] := by
    unfold hashLibraries
    rw [hrp2]
    rfl
  by_cases hs : rp ∈ store
  · have hrun1 : upload_local_libraries h fs store putOk1 [⟨t1, p1⟩] =
        ([Event.existsCheck rp true], .ok [⟨t1, rp⟩]) := by
      unfold upload_local_libraries
      rw [hash1]
      simp [run_puts, hs]
    rw [hrun1]
    have hsa : storeAfter store [Event.existsCheck rp true] = store := by
      simp [storeAfter, putPaths]
    rw [hsa]
    have hrun2 : upload_local_libraries h fs store putOk2 [⟨t2, p2⟩] =
        ([Event.existsCheck rp true], .ok [⟨t2, rp⟩]) := by
      unfold upload_local_libraries
      rw [hash2]
      simp [run_puts, hs]
    rw [hrun2]
    simp [countPuts, putPaths]
  · by_cases hp1 : putOk1 p1 rp
    · have hrun1 : upload_local_libraries h fs store putOk1 [⟨t1, p1⟩] =
          ([Event.existsCheck rp false, Event.put p1 rp], .ok [⟨t1, rp⟩]) := by
        unfold upload_local_libraries
        rw [hash1]
        simp [run_puts, hs, hp1]
      rw [hrun1]
      have hsa : storeAfter store [Event.existsCheck rp false, Event.put p1 rp] =
          store ++ [rp] := by
        simp [storeAfter, putPaths]
      rw [hsa]
      have hs2 : (store ++ [rp]).contains rp = true := by simp
      have hrun2 : upload_local_libraries h fs (store ++ [rp]) putOk2 [⟨t2, p2⟩] =
          ([Event.existsCheck rp true], .ok [⟨t2, rp⟩]) := by
        unfold upload_local_libraries
        rw [hash2]
        simp [run_puts, hs2]
      rw [hrun2]
      simp [countPuts, putPaths]
    · have hrun1 : upload_local_libraries h fs store putOk1 [⟨t1, p1⟩] =
          ([Event.existsCheck rp false], .error ("upload error: " ++ rp)) := by
        unfold upload_local_libraries
        rw [hash1]
        simp [run_puts, hs, hp1]
      rw [hrun1]
      have hsa : storeAfter store [Event.existsCheck rp false] = store := by
        simp [storeAfter, putPaths]
      rw [hsa]
      by_cases hp2 : putOk2 p2 rp
      · have hrun2 : upload_local_libraries h fs store putOk2 [⟨t2, p2⟩] =
            ([Event.existsCheck rp false, Event.put p2 rp], .ok [⟨t2, rp⟩]) := by
          unfold upload_local_libraries
          rw [hash2]
          simp [run_puts, hs, hp2]
        rw [hrun2]
        simp [countPuts, putPaths]
      · have hrun2 : upload_local_libraries h fs store putOk2 [⟨t2, p2⟩] =
            ([Event.existsCheck rp false], .error ("upload error: " ++ rp)) := by
          unfold upload_local_libraries
          rw [hash2]
          simp [run_puts, hs, hp2]
        rw [hrun2]
        simp [countPuts, putPaths]

/-- Witness for C2 at two distinct files with the same content and
extension, an empty store and succeeding puts: hashed paths match and
the path is put exactly once across the two successive calls. -/
theorem c2_witness :
    (([("a.jar", [1]), ("b.jar", [1])] : List (String × List Nat)).lookup "a.jar" =
        some [1]) ∧
    (([("a.jar", [1]), ("b.jar", [1])] : List (String × List Nat)).lookup "b.jar" =
        some [1]) ∧
    (splitext "a.jar").2 = (splitext "b.jar").2 ∧
    get_hashed_path (fun _ => "H") [("a.jar", [1]), ("b.jar", [1])] "a.jar" =
      .ok "dbfs:/pipelines/code/H.jar" ∧
    (get_hashed_path (fun _ => "H") [("a.jar", [1]), ("b.jar", [1])] "a.jar" =
        get_hashed_path (fun _ => "H") [("a.jar", [1]), ("b.jar", [1])] "b.jar" ∧
      countPuts "dbfs:/pipelines/code/H.jar"
          (upload_local_libraries (fun _ => "H") [("a.jar", [1]), ("b.jar", [1])] []
            (fun _ _ => true) [⟨"jar", "a.jar"⟩]).1 +
        countPuts "dbfs:/pipelines/code/H.jar"
          (upload_local_libraries (fun _ => "H") [("a.jar", [1]), ("b.jar", [1])]
            (storeAfter []
              (upload_local_libraries (fun _ => "H")
                [("a.jar", [1]), ("b.jar", [1])] [] (fun _ _ => true)
                [⟨"jar", "a.jar"⟩]).1)
            (fun _ _ => true) [⟨"jar", "b.jar"⟩]).1 ≤ 1) :=
  ⟨by rfl, by rfl, by rfl, by rfl,
    c2_content_addressing_dedup (fun _ => "H") [("a.jar", [1]), ("b.jar", [1])]
      "a.jar" "b.jar" [1] (by rfl) (by rfl) (by rfl) [] (fun _ _ => true)
      (fun _ _ => true) "jar" "jar" "dbfs:/pipelines/code/H.jar" (by rfl)⟩

/-- C4: the libraries list placed in the outgoing specification is all
external descriptors first, in their original relative input order
(`extPartition`), followed by the uploaded counterparts of the local
descriptors, in their original relative input order (`locPartition`) —
not the original global interleaving. -/
theorem c4_external_then_uploaded (h : List Nat → String)
    (fs : List (String × List Nat)) (store : List String)
    (putOk : String → String → Bool) (sendOk : Bool)
    (profile : Option String) (pc : String → Option Config) (dc : Option Config)
    (spec spec' : List (String × Json)) (evs : List Event) (req : Request)
    (libs : List (List (String × String)))
    (hdec : decodeLibraries (dictGetD spec "libraries" (.arr [])) = .ok libs)
    (hdep : deploy h fs store putOk sendOk profile pc dc spec =
      (spec', evs, .ok req)) :
    ∃ remote,
      hashLibraries h fs (locPartition (LibraryObject.from_json libs)) =
        .ok remote ∧
      req.body.lookup "libraries" = some (libsToJson (LibraryObject.to_json
        (extPartition (LibraryObject.from_json libs) ++ remote))) := by
  obtain ⟨libs0, loc, ext, remote, creds, idv, hdec0, hident, hup, hcred,
    hspec', hid, hsend, hreq⟩ :=
    deploy_ok_decomp h fs store putOk sendOk profile pc dc spec spec' evs req hdep
  rw [hdec] at hdec0
  cases hdec0
  obtain ⟨hloc, hext⟩ := identify_ok_parts _ _ _ hident
  subst hloc; subst hext
  have hhash := (upload_local_libraries_ok h fs store putOk _ _ _ hup).1
  refine ⟨remote, hhash, ?_⟩
  rw [hreq]
  show spec'.lookup "libraries" = _
  rw [hspec']
  unfold specAfterCredentials specAfterLibraries newLibrariesValue
  rw [lookup_dictSet_ne _ _ _ _ (by decide), lookup_dictSet_self]

/-- Witness for C4 on the spec scenario: one local jar and one external
https wheel; the body's libraries are the wheel first, then the
uploaded jar. -/
theorem c4_witness :
    decodeLibraries (dictGetD
        [("id", Json.str "p1"),
          ("libraries", Json.arr [.obj [("jar", .str "/tmp/a.jar")],
            .obj [("whl", .str "https://repo/x.whl")]])]
        "libraries" (.arr [])) =
      .ok [[("jar", "/tmp/a.jar")], [("whl", "https://repo/x.whl")]] ∧
    ∃ spec' evs req,
      deploy (fun _ => "abc123") [("/tmp/a.jar", [7])] [] (fun _ _ => true)
        true none (fun _ => none) (some ⟨true, true, "T", "u", "p"⟩)
        [("id", Json.str "p1"),
          ("libraries", Json.arr [.obj [("jar", .str "/tmp/a.jar")],
            .obj [("whl", .str "https://repo/x.whl")]])] =
        (spec', evs, .ok req) ∧
      ∃ remote,
        hashLibraries (fun _ => "abc123") [("/tmp/a.jar", [7])]
          (locPartition (LibraryObject.from_json
            [[("jar", "/tmp/a.jar")], [("whl", "https://repo/x.whl")]])) =
          .ok remote ∧
        req.body.lookup "libraries" = some (libsToJson (LibraryObject.to_json
          (extPartition (LibraryObject.from_json
            [[("jar", "/tmp/a.jar")], [("whl", "https://repo/x.whl")]]) ++
            remote))) := by
  refine ⟨by rfl,
    [("id", Json.str "p1"),
      ("libraries", Json.arr [.obj [("whl", .str "https://repo/x.whl")],
        .obj [("jar", .str "dbfs:/pipelines/code/abc123.jar")]]),
      ("credentials", Json.obj [("token", Json.str "T")])],
    [Event.existsCheck "dbfs:/pipelines/code/abc123.jar" false,
      Event.put "/tmp/a.jar" "dbfs:/pipelines/code/abc123.jar"],
    ⟨"PUT", "/pipelines/p1",
      [("id", Json.str "p1"),
        ("libraries", Json.arr [.obj [("whl", .str "https://repo/x.whl")],
          .obj [("jar", .str "dbfs:/pipelines/code/abc123.jar")]]),
        ("credentials", Json.obj [("token", Json.str "T")])]⟩,
    by rfl, ?_⟩
  exact c4_external_then_uploaded (fun _ => "abc123") [("/tmp/a.jar", [7])] []
    (fun _ _ => true) true none (fun _ => none)
    (some ⟨true, true, "T", "u", "p"⟩)
    [("id", Json.str "p1"),
      ("libraries", Json.arr [.obj [("jar", .str "/tmp/a.jar")],
        .obj [("whl", .str "https://repo/x.whl")]])]
    _ _ _ [[("jar", "/tmp/a.jar")], [("whl", "https://repo/x.whl")]]
    (by rfl) (by rfl)

/-- C9: the body `deploy` sends as a PUT to `/pipelines/{id}` is the
input mapping with exactly two keys changed — `libraries` replaced per
the classification/upload rules and `credentials` added or overwritten
with the resolved payload; every other key passes through unmodified. -/
theorem c9_body_frame (h : List Nat → String) (fs : List (String × List Nat))
    (store : List String) (putOk : String → String → Bool) (sendOk : Bool)
    (profile : Option String) (pc : String → Option Config) (dc : Option Config)
    (spec spec' : List (String × Json)) (evs : List Event) (req : Request)
    (creds : List (String × String))
    (hcred : get_credentials_for_request profile pc dc = .ok creds)
    (hdep : deploy h fs store putOk sendOk profile pc dc spec =
      (spec', evs, .ok req)) :
    req.method = "PUT" ∧
    (∃ idv, req.body.lookup "id" = some idv ∧
      req.url = "/pipelines/" ++ formatId idv) ∧
    req.body.lookup "credentials" = some (credsToJson creds) ∧
    (∃ ext remote, req.body.lookup "libraries" =
        some (newLibrariesValue ext remote) ∧
      ∃ libs loc,
        decodeLibraries (dictGetD spec "libraries" (.arr [])) = .ok libs ∧
        identify_local_libraries (LibraryObject.from_json libs) =
          .ok (loc, ext) ∧
        upload_local_libraries h fs store putOk loc = (evs, .ok remote)) ∧
    (∀ k, k ≠ "libraries" → k ≠ "credentials" →
      req.body.lookup k = spec.lookup k) := by
  obtain ⟨libs, loc, ext, remote, creds0, idv, hdec, hident, hup, hcred0,
    hspec', hid, hsend, hreq⟩ :=
    deploy_ok_decomp h fs store putOk sendOk profile pc dc spec spec' evs req hdep
  rw [hcred] at hcred0
  cases hcred0
  have hbody : req.body = spec' := by rw [hreq]
  refine ⟨by rw [hreq], ⟨idv, ?_, by rw [hreq]⟩, ?_, ?_, ?_⟩
  · rw [hbody, hid]
  · rw [hbody, hspec']
    exact lookup_dictSet_self _ _ _
  · refine ⟨ext, remote, ?_, libs, loc, hdec, hident, hup⟩
    rw [hbody, hspec']
    unfold specAfterCredentials specAfterLibraries
    rw [lookup_dictSet_ne _ _ _ _ (by decide), lookup_dictSet_self]
  · intro k hk1 hk2
    rw [hbody, hspec']
    unfold specAfterCredentials specAfterLibraries
    rw [lookup_dictSet_ne _ _ _ _ hk2, lookup_dictSet_ne _ _ _ _ hk1]

/-- Witness for C9 on the spec scenario: the "id" and "extra" keys pass
through untouched while libraries and credentials change. -/
theorem c9_witness :
    get_credentials_for_request none (fun _ => none)
        (some ⟨true, true, "T", "u", "p"⟩) = .ok [("token", "T")] ∧
    ∃ spec' evs req,
      deploy (fun _ => "abc123") [("/tmp/a.jar", [7])] [] (fun _ _ => true)
        true none (fun _ => none) (some ⟨true, true, "T", "u", "p"⟩)
        [("id", Json.str "p1"), ("extra", Json.num 5),
          ("libraries", Json.arr [.obj [("jar", .str "/tmp/a.jar")],
            .obj [("whl", .str "https://repo/x.whl")]])] =
        (spec', evs, .ok req) ∧
      (req.method = "PUT" ∧
        (∃ idv, req.body.lookup "id" = some idv ∧
          req.url = "/pipelines/" ++ formatId idv) ∧
        req.body.lookup "credentials" =
          some (credsToJson [("token", "T")]) ∧
        (∃ ext remote, req.body.lookup "libraries" =
            some (newLibrariesValue ext remote) ∧
          ∃ libs loc,
            decodeLibraries (dictGetD
              [("id", Json.str "p1"), ("extra", Json.num 5),
                ("libraries", Json.arr [.obj [("jar", .str "/tmp/a.jar")],
                  .obj [("whl", .str "https://repo/x.whl")]])]
              "libraries" (.arr [])) = .ok libs ∧
            identify_local_libraries (LibraryObject.from_json libs) =
              .ok (loc, ext) ∧
            upload_local_libraries (fun _ => "abc123") [("/tmp/a.jar", [7])] []
              (fun _ _ => true) loc = (evs, .ok remote)) ∧
        (∀ k, k ≠ "libraries" → k ≠ "credentials" →
          req.body.lookup k =
            ([("id", Json.str "p1"), ("extra", Json.num 5),
              ("libraries", Json.arr [.obj [("jar", .str "/tmp/a.jar")],
                .obj [("whl", .str "https://repo/x.whl")]])] :
              List (String × Json)).lookup k)) := by
  refine ⟨by rfl,
    [("id", Json.str "p1"), ("extra", Json.num 5),
      ("libraries", Json.arr [.obj [("whl", .str "https://repo/x.whl")],
        .obj [("jar", .str "dbfs:/pipelines/code/abc123.jar")]]),
      ("credentials", Json.obj [("token", Json.str "T")])],
    [Event.existsCheck "dbfs:/pipelines/code/abc123.jar" false,
      Event.put "/tmp/a.jar" "dbfs:/pipelines/code/abc123.jar"],
    ⟨"PUT", "/pipelines/p1",
      [("id", Json.str "p1"), ("extra", Json.num 5),
        ("libraries", Json.arr [.obj [("whl", .str "https://repo/x.whl")],
          .obj [("jar", .str "dbfs:/pipelines/code/abc123.jar")]]),
        ("credentials", Json.obj [("token", Json.str "T")])]⟩,
    by rfl, ?_⟩
  exact c9_body_frame (fun _ => "abc123") [("/tmp/a.jar", [7])] []
    (fun _ _ => true) true none (fun _ => none)
    (some ⟨true, true, "T", "u", "p"⟩)
    [("id", Json.str "p1"), ("extra", Json.num 5),
      ("libraries", Json.arr [.obj [("jar", .str "/tmp/a.jar")],
        .obj [("whl", .str "https://repo/x.whl")]])]
    _ _ _ [("token", "T")] (by rfl) (by rfl)

/-- C10: `deploy` mutates the caller's mapping in place — once the
stages through credential resolution succeed, the caller's mapping has
`libraries` overwritten with the reordered remote list and
`credentials` set to the resolved payload, whether or not the id lookup
or the request itself then fails; the request body, when a request is
produced, is that same mutated mapping; and a mapping with no
`libraries` key is treated as an empty library list. -/
theorem c10_mutates_in_place (h : List Nat → String)
    (fs : List (String × List Nat)) (store : List String)
    (putOk : String → String → Bool) (sendOk : Bool)
    (profile : Option String) (pc : String → Option Config) (dc : Option Config)
    (spec spec' : List (String × Json)) (evs evs0 : List Event)
    (res : Except String Request) (libs : List (List (String × String)))
    (loc ext remote : List LibraryObject) (creds : List (String × String))
    (hdec : decodeLibraries (dictGetD spec "libraries" (.arr [])) = .ok libs)
    (hident : identify_local_libraries (LibraryObject.from_json libs) =
      .ok (loc, ext))
    (hup : upload_local_libraries h fs store putOk loc = (evs0, .ok remote))
    (hcred : get_credentials_for_request profile pc dc = .ok creds)
    (hdep : deploy h fs store putOk sendOk profile pc dc spec =
      (spec', evs, res)) :
    spec'.lookup "libraries" = some (newLibrariesValue ext remote) ∧
    spec'.lookup "credentials" = some (credsToJson creds) ∧
    (∀ req, res = .ok req → req.body = spec') ∧
    (spec.lookup "libraries" = none → libs = []) := by
  have hempty : spec.lookup "libraries" = none → libs = [] := by
    intro hnone
    have hgd : dictGetD spec "libraries" (.arr []) = .arr [] := by
      simp [dictGetD, hnone]
    rw [hgd] at hdec
    have : decodeLibraries (Json.arr []) =
        .ok ([] : List (List (String × String))) := rfl
    rw [this] at hdec
    cases hdec
    rfl
  have hliblookup : (specAfterCredentials spec ext remote creds).lookup
      "libraries" = some (newLibrariesValue ext remote) := by
    unfold specAfterCredentials specAfterLibraries
    rw [lookup_dictSet_ne _ _ _ _ (by decide), lookup_dictSet_self]
  have hcredlookup : (specAfterCredentials spec ext remote creds).lookup
      "credentials" = some (credsToJson creds) :=
    lookup_dictSet_self _ _ _
  unfold deploy at hdep
  split at hdep
  · rename_i e heq; rw [hdec] at heq; exact absurd heq (by simp)
  · rename_i libs0 heq
    rw [hdec] at heq
    cases heq
    split at hdep
    · rename_i e heq2; rw [hident] at heq2; exact absurd heq2 (by simp)
    · rename_i loc0 ext0 heq2
      rw [hident] at heq2
      simp only [Except.ok.injEq, Prod.mk.injEq] at heq2
      obtain ⟨hl0, he0⟩ := heq2
      subst hl0; subst he0
      split at hdep
      · rename_i events e heq3
        rw [hup] at heq3
        exact absurd heq3 (by simp)
      · rename_i events remote0 heq3
        rw [hup] at heq3
        simp only [Prod.mk.injEq, Except.ok.injEq] at heq3
        obtain ⟨hev0, hr0⟩ := heq3
        subst hr0
        split at hdep
        · rename_i e heq4; rw [hcred] at heq4; exact absurd heq4 (by simp)
        · rename_i creds0 heq4
          rw [hcred] at heq4
          cases heq4
          split at hdep
          · simp only [Prod.mk.injEq] at hdep
            obtain ⟨h1, h2, h3⟩ := hdep
            subst h1
            refine ⟨hliblookup, hcredlookup, ?_, hempty⟩
            intro req hr
            rw [← h3] at hr
            exact absurd hr (by simp)
          · rename_i idv heq5
            by_cases hsend : sendOk
            · rw [if_pos hsend] at hdep
              simp only [Prod.mk.injEq] at hdep
              obtain ⟨h1, h2, h3⟩ := hdep
              subst h1
              refine ⟨hliblookup, hcredlookup, ?_, hempty⟩
              intro req hr
              rw [← h3] at hr
              simp only [Except.ok.injEq] at hr
              rw [← hr]
            · rw [if_neg hsend] at hdep
              simp only [Prod.mk.injEq] at hdep
              obtain ⟨h1, h2, h3⟩ := hdep
              subst h1
              refine ⟨hliblookup, hcredlookup, ?_, hempty⟩
              intro req hr
              rw [← h3] at hr
              exact absurd hr (by simp)

/-- Witness for C10: deploy on a mapping with no `libraries` key, where
the request stage fails; the caller's mapping still ends with the empty
libraries value and the token credentials set. -/
theorem c10_witness :
    decodeLibraries (dictGetD [("id", Json.str "p1")] "libraries" (.arr [])) =
      .ok [] ∧
    identify_local_libraries (LibraryObject.from_json []) = .ok ([], []) ∧
    upload_local_libraries (fun _ => "H") [] [] (fun _ _ => true) [] =
      ([], .ok []) ∧
    get_credentials_for_request none (fun _ => none)
      (some ⟨true, true, "T", "u", "p"⟩) = .ok [("token", "T")] ∧
    deploy (fun _ => "H") [] [] (fun _ _ => true) false none (fun _ => none)
        (some ⟨true, true, "T", "u", "p"⟩) [("id", Json.str "p1")] =
      ([("id", Json.str "p1"), ("libraries", Json.arr []),
        ("credentials", Json.obj [("token", Json.str "T")])],
        [], .error "request error") ∧
    (([("id", Json.str "p1"), ("libraries", Json.arr []),
        ("credentials", Json.obj [("token", Json.str "T")])] :
        List (String × Json)).lookup "libraries" =
      some (newLibrariesValue [] []) ∧
    ([("id", Json.str "p1"), ("libraries", Json.arr []),
        ("credentials", Json.obj [("token", Json.str "T")])] :
        List (String × Json)).lookup "credentials" =
      some (credsToJson [("token", "T")]) ∧
    (∀ req, (.error "request error" : Except String Request) = .ok req →
      req.body = [("id", Json.str "p1"), ("libraries", Json.arr []),
        ("credentials", Json.obj [("token", Json.str "T")])]) ∧
    (([("id", Json.str "p1")] : List (String × Json)).lookup "libraries" =
        none →
      ([] : List (List (String × String))) = [])) :=
  ⟨by rfl, by rfl, by rfl, by rfl, by rfl,
    c10_mutates_in_place (fun _ => "H") [] [] (fun _ _ => true) false none
      (fun _ => none) (some ⟨true, true, "T", "u", "p"⟩)
      [("id", Json.str "p1")]
      [("id", Json.str "p1"), ("libraries", Json.arr []),
        ("credentials", Json.obj [("token", Json.str "T")])]
      [] [] (.error "request error") [] [] [] [] [("token", "T")]
      (by rfl) (by rfl) (by rfl) (by rfl) (by rfl)⟩

end Pipelines
